import Mathlib

/-!
Verification development for the voice-ai-backend repository.

The definitions below are shallow embeddings of the JavaScript source:

* `PipelineState`, `Step`, `Reachable` embed the per-turn streaming pipeline of
  `handleUserMessage` and `processAudioQueue` in `index.js`: the shared
  `sentenceQueue` array (append-only, with its ad-hoc `complete` and
  `processed` properties), the `processedCount` cursor of the audio loop, the
  `isProcessingAudio` start flag, the session's `isCallActive` flag, and the
  ordered log of `audio-response` events sent to the socket.
* `callStartPush`, `turnStartPush`, `turnHistory` embed the conversation
  history updates of the `call-start` handler and `handleUserMessage`.
* `fullResponseCode` embeds the `fullResponse` accumulation of
  `handleUserMessage`.
* `onTranscriptTurns` embeds the `session.deepgram.onTranscript` handler.
* `LLMService.construct` and `connectionInit` embed the `LLMService`
  constructor in `services/llm.js` and the `io.on connection` handler.
* `isStale` and `sweep` embed the periodic stale-session cleanup.
* `streamGeminiHistoryArg` and `generateGeminiHistoryArg` embed the history
  preparation of `streamGeminiResponse` and `generateGeminiResponse` in
  `services/llm.js`.
-/

/-- State of one turn of the streaming pipeline, as realised by
`handleUserMessage` together with `processAudioQueue`.

* `queue` is the contents of the `sentenceQueue` array.  The code only ever
  does `sentenceQueue.push(...)` and reads `sentenceQueue[processedCount]`;
  elements are never removed, so the array is append-only.
* `complete` is the ad-hoc `sentenceQueue.complete` property.
* `processedCount` is the local cursor of `processAudioQueue`.
* `processed` is the ad-hoc `sentenceQueue.processed` property, set after the
  audio loop breaks.
* `started` is the `isProcessingAudio` flag of `handleUserMessage`.
* `isCallActive` is the session flag toggled by `call-start` / `call-end`.
* `emitted` is the ordered log of `audio-response` events sent on the socket,
  each recorded with the queue index of the sentence it belongs to. -/
structure PipelineState where
  queue : List String
  complete : Bool
  processedCount : Nat
  processed : Bool
  started : Bool
  isCallActive : Bool
  emitted : List (Nat × String)
deriving DecidableEq

/-- Pipeline state at the start of a turn: `handleUserMessage` creates a fresh
empty `sentenceQueue`, `isProcessingAudio = false`, and the call is active. -/
def initState : PipelineState :=
  { queue := []
    complete := false
    processedCount := 0
    processed := false
    started := false
    isCallActive := true
    emitted := [] }

/-- One scheduler step of the single-threaded event loop running a turn.
`tts i s` is the outcome of the synthesis call issued for queue index `i`
with sentence text `s` (`some audio` on success, `none` when
`session.cartesia.textToSpeech` rejects).

* `pushStream`: the stream loop of `handleUserMessage` pushes a detected
  sentence and (via the `isProcessingAudio` check) ensures the audio loop is
  running.  All pushes happen before `sentenceQueue.complete = true` is set.
* `pushRemainder`: the trailing remainder is pushed after the stream ends;
  note the code does not start the audio loop here.
* `markComplete`: `sentenceQueue.complete = true`.
* `callEnd`: the `call-end` handler sets `session.isCallActive = false` (and
  tears down the Deepgram connection, which has no effect on this state).
* `proc`: one iteration of the `processAudioQueue` loop body when
  `sentenceQueue.length > processedCount`: reads the sentence at
  `processedCount`, increments the cursor, awaits synthesis, and on success
  emits an `audio-response` event; on a synthesis error only logs.  The loop
  body consults neither `isCallActive` nor any cancellation flag.
* `procDone`: the loop observes `sentenceQueue.complete` with no sentence
  left, breaks, and sets `sentenceQueue.processed = true`. -/
inductive Step (tts : Nat → String → Option String) :
    PipelineState → PipelineState → Prop
  | pushStream (st : PipelineState) (s : String) (hc : st.complete = false) :
      Step tts st { st with queue := st.queue ++ [s], started := true }
  | pushRemainder (st : PipelineState) (s : String) (hc : st.complete = false) :
      Step tts st { st with queue := st.queue ++ [s] }
  | markComplete (st : PipelineState) :
      Step tts st { st with complete := true }
  | callEnd (st : PipelineState) :
      Step tts st { st with isCallActive := false }
  | proc (st : PipelineState) (hs : st.started = true)
      (hlt : st.processedCount < st.queue.length) :
      Step tts st { st with
        processedCount := st.processedCount + 1
        emitted := st.emitted ++
          ((tts st.processedCount (st.queue.getD st.processedCount "")).map
            (fun a => (st.processedCount, a))).toList }
  | procDone (st : PipelineState) (hs : st.started = true)
      (hc : st.complete = true) (hge : st.queue.length ≤ st.processedCount) :
      Step tts st { st with processed := true }

/-- States reachable from the start of a turn. -/
inductive Reachable (tts : Nat → String → Option String) : PipelineState → Prop
  | init : Reachable tts initState
  | step {st st' : PipelineState} :
      Reachable tts st → Step tts st st' → Reachable tts st'

/-- The `audio-response` events produced by the first `n` iterations of the
`processAudioQueue` loop over `queue`: one event per successfully synthesized
sentence, in queue order; a failed synthesis contributes nothing. -/
def orderedEmissions (tts : Nat → String → Option String)
    (queue : List String) : Nat → List (Nat × String)
  | 0 => []
  | n + 1 => orderedEmissions tts queue n ++
      ((tts n (queue.getD n "")).map (fun a => (n, a))).toList

/-- Pipeline invariant: the cursor never passes the queue, the emission log is
exactly the in-order successful syntheses of the processed prefix, the audio
loop only runs once a sentence was pushed, and `processed` is only set by the
running audio loop. -/
def PipelineInv (tts : Nat → String → Option String) (st : PipelineState) : Prop :=
  st.processedCount ≤ st.queue.length ∧
  st.emitted = orderedEmissions tts st.queue st.processedCount ∧
  (st.started = true → st.queue ≠ []) ∧
  (st.processed = true → st.started = true)

lemma orderedEmissions_congr (tts : Nat → String → Option String)
    (q q' : List String) (n : Nat)
    (h : ∀ i, i < n → q.getD i "" = q'.getD i "") :
    orderedEmissions tts q n = orderedEmissions tts q' n := by
  induction n with
  | zero => rfl
  | succ m ih =>
      simp only [orderedEmissions]
      rw [ih (fun i hi => h i (Nat.lt_succ_of_lt hi)), h m (Nat.lt_succ_self m)]

lemma orderedEmissions_append (tts : Nat → String → Option String)
    (q : List String) (s : String) (n : Nat) (h : n ≤ q.length) :
    orderedEmissions tts (q ++ [s]) n = orderedEmissions tts q n := by
  refine orderedEmissions_congr tts _ _ n (fun i hi => ?_)
  have hi' : i < q.length := lt_of_lt_of_le hi h
  rw [List.getD_append _ _ _ _ hi']

lemma orderedEmissions_fst_lt (tts : Nat → String → Option String)
    (q : List String) (n : Nat) :
    ∀ p ∈ orderedEmissions tts q n, p.1 < n := by
  induction n with
  | zero => intro p hp; simp [orderedEmissions] at hp
  | succ m ih =>
      intro p hp
      simp only [orderedEmissions, List.mem_append] at hp
      rcases hp with hp | hp
      · exact Nat.lt_succ_of_lt (ih p hp)
      · cases h : tts m (q.getD m "") with
        | none =>
            rw [h] at hp
            exact absurd hp (List.not_mem_nil p)
        | some a =>
            rw [h] at hp
            rw [List.mem_singleton.mp hp]
            exact Nat.lt_succ_self m

lemma orderedEmissions_pairwise (tts : Nat → String → Option String)
    (q : List String) (n : Nat) :
    (orderedEmissions tts q n).Pairwise (fun p r => p.1 < r.1) := by
  induction n with
  | zero => exact List.Pairwise.nil
  | succ m ih =>
      simp only [orderedEmissions]
      rw [List.pairwise_append]
      refine ⟨ih, ?_, ?_⟩
      · cases h : tts m (q.getD m "") <;> simp
      · intro p hp r hr
        have hpm : p.1 < m := orderedEmissions_fst_lt tts q m p hp
        cases h : tts m (q.getD m "") with
        | none =>
            rw [h] at hr
            exact absurd hr (List.not_mem_nil r)
        | some a =>
            rw [h] at hr
            rw [List.mem_singleton.mp hr]
            exact hpm

lemma pipelineInv_init (tts : Nat → String → Option String) :
    PipelineInv tts initState := by
  refine ⟨Nat.le_refl 0, rfl, ?_, ?_⟩ <;> intro h <;> simp [initState] at h

lemma pipelineInv_step (tts : Nat → String → Option String)
    {st st' : PipelineState} (hinv : PipelineInv tts st)
    (hstep : Step tts st st') : PipelineInv tts st' := by
  obtain ⟨hle, hemit, hstart, hproc⟩ := hinv
  cases hstep with
  | pushStream s hc =>
      refine ⟨?_, ?_, ?_, ?_⟩
      · simp only [List.length_append, List.length_singleton]
        exact Nat.le_succ_of_le hle
      · simpa using hemit.trans
          (orderedEmissions_append tts st.queue s st.processedCount hle).symm
      · intro _; simp
      · intro h
        simp only at h
        simp
  | pushRemainder s hc =>
      refine ⟨?_, ?_, ?_, ?_⟩
      · simp only [List.length_append, List.length_singleton]
        exact Nat.le_succ_of_le hle
      · simpa using hemit.trans
          (orderedEmissions_append tts st.queue s st.processedCount hle).symm
      · intro h
        simp only at h
        have := hstart h
        simp_all
      · intro h
        simp only at h
        simpa using hproc h
  | markComplete =>
      exact ⟨hle, hemit, hstart, hproc⟩
  | callEnd =>
      exact ⟨hle, hemit, hstart, hproc⟩
  | proc hs hlt =>
      refine ⟨hlt, ?_, hstart, hproc⟩
      simp only [orderedEmissions]
      rw [hemit]
  | procDone hs hc hge =>
      exact ⟨hle, hemit, hstart, fun _ => hs⟩

lemma reachable_inv (tts : Nat → String → Option String)
    {st : PipelineState} (h : Reachable tts st) : PipelineInv tts st := by
  induction h with
  | init => exact pipelineInv_init tts
  | step _ hstep ih => exact pipelineInv_step tts ih hstep

lemma orderedEmissions_filter (tts : Nat → String → Option String)
    (q : List String) (n i : Nat) (hi : i < n) :
    (orderedEmissions tts q n).filter (fun p => p.1 == i) =
      ((tts i (q.getD i "")).map (fun a => (i, a))).toList := by
  induction n with
  | zero => exact absurd hi (Nat.not_lt_zero i)
  | succ m ih =>
      rw [orderedEmissions, List.filter_append]
      rcases Nat.lt_succ_iff_lt_or_eq.mp hi with hlt | heq
      · rw [ih hlt]
        have htail : (((tts m (q.getD m "")).map (fun a => (m, a))).toList).filter
            (fun p => p.1 == i) = [] := by
          cases h : tts m (q.getD m "") with
          | none => rfl
          | some a =>
              have hne : m ≠ i := (Nat.ne_of_lt hlt).symm
              simp [hne]
        rw [htail, List.append_nil]
      · subst heq
        have hpre : (orderedEmissions tts q i).filter (fun p => p.1 == i) = [] := by
          rw [List.filter_eq_nil_iff]
          intro p hp
          have hplt := orderedEmissions_fst_lt tts q i p hp
          simp [Nat.ne_of_lt hplt]
        rw [hpre, List.nil_append]
        cases h : tts i (q.getD i "") with
        | none => rfl
        | some a => simp

/-- Example synthesis outcome for concrete runs: every call succeeds and the
audio payload is the sentence text itself. -/
def ttsEcho : Nat → String → Option String := fun _ s => some s

/-- Synthesis outcome where the call for the sentence "Oops." rejects and
every other call succeeds. -/
def ttsFailOops : Nat → String → Option String :=
  fun _ s => if s = "Oops." then none else some s

/-- Concrete reachable state: one sentence pushed and synthesized. -/
def exState : PipelineState :=
  { queue := ["Hello."]
    complete := false
    processedCount := 1
    processed := false
    started := true
    isCallActive := true
    emitted := [(0, "Hello.")] }

lemma reach_exState : Reachable ttsEcho exState := by
  have h0 : Reachable ttsEcho initState := Reachable.init
  have h1 := Reachable.step h0 (Step.pushStream initState "Hello." rfl)
  have h2 := Reachable.step h1 (Step.proc _ rfl (by decide))
  exact h2

/-- Claim C1: within a turn, audio results are emitted to the client in
exactly the order the sentences were produced by the detector (the queue
admission order), with strictly increasing sequence numbers, regardless of
the latency of the individual synthesis calls: in every reachable pipeline
state the `audio-response` log equals the in-order successful syntheses of
the processed prefix of the sentence queue, and the logged sequence numbers
are strictly increasing. -/
theorem c1_audio_emitted_in_sentence_order (tts : Nat → String → Option String)
    (st : PipelineState) (h : Reachable tts st) :
    st.emitted = orderedEmissions tts st.queue st.processedCount ∧
    (st.emitted.map Prod.fst).Pairwise (· < ·) := by
  obtain ⟨-, hemit, -, -⟩ := reachable_inv tts h
  refine ⟨hemit, ?_⟩
  rw [hemit, List.pairwise_map]
  exact orderedEmissions_pairwise tts st.queue st.processedCount

/-- Witness for C1 at a concrete reachable state. -/
theorem c1_witness :
    exState.emitted = orderedEmissions ttsEcho exState.queue exState.processedCount ∧
    (exState.emitted.map Prod.fst).Pairwise (· < ·) :=
  c1_audio_emitted_in_sentence_order ttsEcho exState reach_exState

/-- Claim C2 (code bug): `handleUserMessage` waits with
`while (sentenceQueue.length > 0 or not sentenceQueue.processed)`.  Its exit
condition — empty queue and `processed` set — holds in no reachable pipeline
state: the array is append-only (sentences are read via `processedCount`,
never removed), and `processed` is only set by the audio loop, which only
starts after a sentence was pushed.  Hence the drain wait never completes,
so the `complete: true` event is never sent and the assistant entry never
reaches history, contradicting the claim that finalization terminates. -/
theorem c2_drain_wait_never_exits (tts : Nat → String → Option String)
    (st : PipelineState) (h : Reachable tts st) :
    ¬ (st.queue.length = 0 ∧ st.processed = true) := by
  obtain ⟨-, -, hstart, hproc⟩ := reachable_inv tts h
  rintro ⟨hlen, hp⟩
  exact (hstart (hproc hp)) (List.length_eq_zero.mp hlen)

/-- Witness for C2 at the initial state. -/
theorem c2_witness :
    ¬ (initState.queue.length = 0 ∧ initState.processed = true) :=
  c2_drain_wait_never_exits ttsEcho initState Reachable.init

/-- Concrete state reached after two sentences were pushed, the first one
synthesized and emitted, the queue marked complete, and the `call-end`
handler run. -/
def c3Mid : PipelineState :=
  { queue := ["Hello.", "Bye."]
    complete := true
    processedCount := 1
    processed := false
    started := true
    isCallActive := false
    emitted := [(0, "Hello.")] }

/-- State after one more audio-loop iteration from `c3Mid`. -/
def c3End : PipelineState :=
  { queue := ["Hello.", "Bye."]
    complete := true
    processedCount := 2
    processed := false
    started := true
    isCallActive := false
    emitted := [(0, "Hello."), (1, "Bye.")] }

lemma reach_c3Mid : Reachable ttsEcho c3Mid := by
  have h0 : Reachable ttsEcho initState := Reachable.init
  have h1 := Reachable.step h0 (Step.pushStream initState "Hello." rfl)
  have h2 := Reachable.step h1 (Step.pushStream _ "Bye." rfl)
  have h3 := Reachable.step h2 (Step.proc _ rfl (by decide))
  have h4 := Reachable.step h3 (Step.markComplete _)
  have h5 := Reachable.step h4 (Step.callEnd _)
  exact h5

/-- Claim C3 is false on the code: in the reachable state `c3Mid` the call
has ended (`isCallActive = false`), yet the audio loop takes another step
that issues the synthesis call for the still-queued sentence "Bye." and
emits its result to the client.  The `call-end` handler only clears
`isCallActive` and tears down Deepgram; nothing stops the turn. -/
theorem c3_counterexample :
    Reachable ttsEcho c3Mid ∧ c3Mid.isCallActive = false ∧
    Step ttsEcho c3Mid c3End ∧
    c3End.emitted = c3Mid.emitted ++ [(1, "Bye.")] :=
  ⟨reach_c3Mid, rfl, Step.proc c3Mid rfl (by decide), by decide⟩

/-- Claim C3 amended: after `call-end`, `isCallActive` is false and the
transcription connection is torn down, but an in-flight turn is not
cancelled: every still-queued sentence still gets its synthesis call issued
and, on success, its result is still emitted to the client; no completion is
reported early.  Formally, the audio-loop step is enabled and has the same
effect regardless of the ended call. -/
theorem c3_amended_processing_continues_after_call_end
    (tts : Nat → String → Option String) (st : PipelineState)
    (hcall : st.isCallActive = false) (hs : st.started = true)
    (hlt : st.processedCount < st.queue.length) :
    ∃ st', Step tts st st' ∧ st'.isCallActive = false ∧
      st'.processedCount = st.processedCount + 1 ∧
      st'.emitted = st.emitted ++
        ((tts st.processedCount (st.queue.getD st.processedCount "")).map
          (fun a => (st.processedCount, a))).toList :=
  ⟨_, Step.proc st hs hlt, hcall, rfl, rfl⟩

/-- Witness for the amended C3 at the concrete state `c3Mid`. -/
theorem c3_amended_witness :
    ∃ st', Step ttsEcho c3Mid st' ∧ st'.isCallActive = false ∧
      st'.processedCount = c3Mid.processedCount + 1 ∧
      st'.emitted = c3Mid.emitted ++
        ((ttsEcho c3Mid.processedCount (c3Mid.queue.getD c3Mid.processedCount "")).map
          (fun a => (c3Mid.processedCount, a))).toList :=
  c3_amended_processing_continues_after_call_end ttsEcho c3Mid rfl rfl (by decide)

/-- Concrete state: sentence "Oops." was admitted and its synthesis call
rejected, then sentence "Ok." was admitted and synthesized. -/
def c5End : PipelineState :=
  { queue := ["Oops.", "Ok."]
    complete := false
    processedCount := 2
    processed := false
    started := true
    isCallActive := true
    emitted := [(1, "Ok.")] }

lemma reach_c5End : Reachable ttsFailOops c5End := by
  have h0 : Reachable ttsFailOops initState := Reachable.init
  have h1 := Reachable.step h0 (Step.pushStream initState "Oops." rfl)
  have h2 := Reachable.step h1 (Step.proc _ rfl (by decide))
  have h3 := Reachable.step h2 (Step.pushStream _ "Ok." rfl)
  have h4 := Reachable.step h3 (Step.proc _ rfl (by decide))
  exact h4

/-- Claim C5 is false on the code: sentence 0 ("Oops.") was admitted and its
synthesis call failed, yet the emission log contains no event at all for
sequence number 0 — the `catch` branch of the audio loop only logs, it sends
no per-sentence failure marker.  (Sentence 1 was still emitted, so the
failure did not block later sentences, but the "exactly once per admitted
sentence" part of the claim fails.) -/
theorem c5_counterexample :
    Reachable ttsFailOops c5End ∧
    ttsFailOops 0 (c5End.queue.getD 0 "") = none ∧
    c5End.processedCount = 2 ∧
    c5End.emitted.filter (fun p => p.1 == 0) = [] ∧
    c5End.emitted = [(1, "Ok.")] :=
  ⟨reach_c5End, by decide, rfl, by decide, rfl⟩

/-- Claim C5 amended: the emission callback fires exactly once per
successfully synthesized sentence, in order; a sentence whose synthesis call
fails produces no client-visible event at all (the error is only logged) and
does not block emission of subsequent sentences: for every processed index,
the emission log contains exactly the successful result of that index. -/
theorem c5_amended_emission_iff_success (tts : Nat → String → Option String)
    (st : PipelineState) (h : Reachable tts st) (i : Nat)
    (hi : i < st.processedCount) :
    st.emitted.filter (fun p => p.1 == i) =
      ((tts i (st.queue.getD i "")).map (fun a => (i, a))).toList := by
  obtain ⟨-, hemit, -, -⟩ := reachable_inv tts h
  rw [hemit]
  exact orderedEmissions_filter tts st.queue st.processedCount i hi

/-- Witness for the amended C5 at the concrete state `c5End`, index 0. -/
theorem c5_amended_witness :
    c5End.emitted.filter (fun p => p.1 == 0) =
      ((ttsFailOops 0 (c5End.queue.getD 0 "")).map (fun a => (0, a))).toList :=
  c5_amended_emission_iff_success ttsFailOops c5End reach_c5End 0 (by decide)

/-- A conversation-history message: role tag plus content. -/
structure Msg where
  role : String
  content : String
deriving DecidableEq

/-- The `call-start` handler pushes the fixed assistant greeting onto the
session's conversation history before any user turn exists (the greeting
text is a string constant in the code; it is a parameter here). -/
def callStartPush (h : List Msg) (greeting : String) : List Msg :=
  h ++ [{ role := "assistant", content := greeting }]

/-- `handleUserMessage` pushes the user message onto the conversation history
as its very first action, before the LLM stream is consumed. -/
def turnStartPush (h : List Msg) (u : String) : List Msg :=
  h ++ [{ role := "user", content := u }]

/-- History effect of one `handleUserMessage` invocation: the user entry is
pushed at entry; the assistant entry is pushed only after the drain wait
completes (`outcome = some fullText`); when the turn errors out or never
reaches the completion push, the history keeps the user entry (the `catch`
block does not undo it). -/
def turnHistory (h : List Msg) (u : String) (outcome : Option String) : List Msg :=
  match outcome with
  | none => turnStartPush h u
  | some full => turnStartPush h u ++ [{ role := "assistant", content := full }]

/-- Claim C4 is false on the code: after `call-start` on a fresh session the
history is the single assistant greeting entry, so it does not start with a
user message; and the next turn pushes its user entry immediately — before
any completion — so the user entry is in the history of a turn that never
completed (`outcome = none`). -/
theorem c4_counterexample :
    (callStartPush [] "greeting").map Msg.role = ["assistant"] ∧
    ("assistant" : String) ≠ "user" ∧
    (turnHistory (callStartPush [] "greeting") "question" none).map Msg.role =
      ["assistant", "user"] :=
  ⟨rfl, by decide, rfl⟩

/-- Claim C4 amended: the `call-start` handler appends the assistant greeting,
so the history ends (and on a fresh session begins) with an assistant entry
rather than strictly alternating from a user message; each turn appends its
user entry the moment handling begins, regardless of the turn's eventual
outcome, and appends the assistant entry only on the (never-reached)
completion path. -/
theorem c4_amended_history_updates (h : List Msg) (u g : String) :
    (∀ o : Option String, (turnHistory h u o).take (h.length + 1) =
        h ++ [{ role := "user", content := u }]) ∧
    (callStartPush h g).getLast? = some { role := "assistant", content := g } := by
  have hlen : (h ++ [({ role := "user", content := u } : Msg)]).length = h.length + 1 := by
    simp
  constructor
  · intro o
    cases o with
    | none =>
        simp only [turnHistory, turnStartPush]
        rw [← hlen, List.take_length]
    | some full =>
        simp only [turnHistory, turnStartPush]
        exact List.take_left' hlen
  · simp [callStartPush]

/-- `fullResponse` accumulation in `handleUserMessage`: every stream chunk is
appended while streaming; at end-of-stream, when the detector retains a
non-empty remainder, the remainder is appended once more, although its
characters already arrived inside the chunks. -/
def fullResponseCode (chunks : List String) (remainder : String) : String :=
  let streamed := chunks.foldl (fun acc c => acc ++ c) ""
  if remainder = "" then streamed else streamed ++ remainder

/-- Claim C6 (code bug): for the stream `["Hi"]` with no sentence boundary,
a conservation-respecting detector emits no sentences and retains the
remainder `"Hi"` (conservation instance: `"" ++ "Hi" = "Hi"`); the code then
computes `fullResponse = "HiHi"`, duplicating the remainder characters,
instead of the exact concatenation `"Hi"` of the fragments. -/
theorem c6_full_text_duplicates_remainder :
    String.join [] ++ "Hi" = String.join ["Hi"] ∧
    fullResponseCode ["Hi"] "Hi" = "HiHi" ∧
    fullResponseCode ["Hi"] "Hi" ≠ String.join ["Hi"] :=
  ⟨rfl, rfl, by decide⟩

/-- Record of one `handleUserMessage` invocation spawned by the transcript
handler: its input, whether it is still running, and whether anything ever
cancelled it. -/
structure TurnRec where
  input : String
  active : Bool
  cancelled : Bool
deriving DecidableEq

/-- The `session.deepgram.onTranscript` handler: it emits the transcript
event and invokes `handleUserMessage` for the finalized transcript.  The
session object has no field tracking an active turn, and the handler neither
consults nor signals earlier invocations, so a new turn simply starts
alongside any running one. -/
def onTranscriptTurns (turns : List TurnRec) (text : String) : List TurnRec :=
  turns ++ [{ input := text, active := true, cancelled := false }]

/-- Claim C7 is false on the code: two finalized transcripts arriving while
the first turn is still running yield two simultaneously active turns and
nothing is cancelled. -/
theorem c7_counterexample :
    onTranscriptTurns (onTranscriptTurns [] "first question") "second question" =
      [{ input := "first question", active := true, cancelled := false },
       { input := "second question", active := true, cancelled := false }] ∧
    (onTranscriptTurns (onTranscriptTurns [] "first question")
        "second question").countP (fun r => r.active) = 2 ∧
    (onTranscriptTurns (onTranscriptTurns [] "first question")
        "second question").countP (fun r => r.cancelled) = 0 :=
  ⟨rfl, by decide, by decide⟩

/-- Claim C7 amended: each finalized transcript immediately starts a new
turn; the session neither tracks nor cancels an existing active turn, so the
number of active turns grows by one, the set of cancelled turns is unchanged,
and all earlier turn records are untouched. -/
theorem c7_amended_turn_spawn (turns : List TurnRec) (text : String) :
    (onTranscriptTurns turns text).take turns.length = turns ∧
    (onTranscriptTurns turns text).countP (fun r => r.active) =
      turns.countP (fun r => r.active) + 1 ∧
    (onTranscriptTurns turns text).countP (fun r => r.cancelled) =
      turns.countP (fun r => r.cancelled) := by
  refine ⟨List.take_left turns _, ?_, ?_⟩ <;>
    simp [onTranscriptTurns, List.countP_append]

/-- Environment configuration read by the `LLMService` constructor. -/
structure EnvConfig where
  llmProvider : Option String
  openaiApiKey : Option String
  googleApiKey : Option String
  openaiModel : Option String
  geminiModel : Option String
deriving DecidableEq

/-- The constructed LLM service: its provider and model fields. -/
structure LLMService where
  provider : String
  model : String
deriving DecidableEq

/-- `LLMService` constructor in `services/llm.js`: picks the provider
(`LLM_PROVIDER`, default "openai"), requires the matching API key
(`initOpenAI` / `initGemini` throw when it is missing), and throws on any
other provider value. -/
def LLMService.construct (env : EnvConfig) : Except String LLMService :=
  let provider := env.llmProvider.getD "openai"
  if provider = "openai" then
    match env.openaiApiKey with
    | none => Except.error "OPENAI_API_KEY is not set"
    | some _ => Except.ok
        { provider := provider, model := env.openaiModel.getD "gpt-5-nano" }
  else if provider = "gemini" then
    match env.googleApiKey with
    | none => Except.error "GOOGLE_API_KEY is not set"
    | some _ => Except.ok
        { provider := provider, model := env.geminiModel.getD "gemini-3-flash" }
  else
    Except.error ("Unsupported LLM provider: " ++ provider)

/-- A registered session as built by the connection handler. -/
structure SessionRec where
  sid : String
  conversationHistory : List Msg
  llm : LLMService
  isCallActive : Bool
  lastActivity : Int
deriving DecidableEq

/-- The `io.on connection` handler: the session object literal evaluates
`new LLMService()` first and then `new CartesiaService()` (the latter is
modelled by the `cartesia` argument, since `services/cartesia.js` is not
among the sources); only if both succeed is the session stored in
`activeSessions`.  A thrown error is caught, one error event is emitted to
the socket, and the handler returns without touching the map. -/
def connectionInit (env : EnvConfig) (cartesia : Except String Unit)
    (sessions : List (String × SessionRec)) (sid : String) (now : Int) :
    List (String × SessionRec) × List String :=
  match LLMService.construct env with
  | Except.error _ =>
      (sessions, ["Server configuration error. Please contact administrator."])
  | Except.ok llm =>
      match cartesia with
      | Except.error _ =>
          (sessions, ["Server configuration error. Please contact administrator."])
      | Except.ok _ =>
          (sessions ++ [(sid,
            { sid := sid
              conversationHistory := []
              llm := llm
              isCallActive := false
              lastActivity := now })], [])

/-- Claim C8: when the `LLMService` constructor throws — missing API key for
the selected provider, or an unsupported provider — the connection handler
emits exactly one error event to the client and the active-session map is
left unchanged: no partial session is registered. -/
theorem c8_failed_init_leaves_registry_unchanged
    (env : EnvConfig) (cartesia : Except String Unit)
    (sessions : List (String × SessionRec)) (sid : String) (now : Int)
    (h : (env.llmProvider.getD "openai" = "openai" ∧ env.openaiApiKey = none) ∨
         (env.llmProvider.getD "openai" = "gemini" ∧ env.googleApiKey = none) ∨
         (env.llmProvider.getD "openai" ≠ "openai" ∧
          env.llmProvider.getD "openai" ≠ "gemini")) :
    connectionInit env cartesia sessions sid now =
      (sessions, ["Server configuration error. Please contact administrator."]) := by
  have herr : ∃ e, LLMService.construct env = Except.error e := by
    rcases h with ⟨hp, hk⟩ | ⟨hp, hk⟩ | ⟨hp1, hp2⟩
    · exact ⟨"OPENAI_API_KEY is not set", by simp [LLMService.construct, hp, hk]⟩
    · exact ⟨"GOOGLE_API_KEY is not set", by simp [LLMService.construct, hp, hk]⟩
    · exact ⟨"Unsupported LLM provider: " ++ env.llmProvider.getD "openai",
        by simp [LLMService.construct, hp1, hp2]⟩
  obtain ⟨e, he⟩ := herr
  simp [connectionInit, he]

/-- Witness for C8: provider "gemini" with no GOOGLE_API_KEY set. -/
theorem c8_witness :
    connectionInit
      { llmProvider := some "gemini"
        openaiApiKey := some "k"
        googleApiKey := none
        openaiModel := none
        geminiModel := none }
      (Except.ok ()) [] "s1" 0 =
      ([], ["Server configuration error. Please contact administrator."]) :=
  c8_failed_init_leaves_registry_unchanged _ _ _ _ _ (Or.inr (Or.inl ⟨rfl, rfl⟩))

/-- One session as seen by the periodic cleanup sweep. -/
structure SweepSession where
  isCallActive : Bool
  lastActivity : Int
deriving DecidableEq

/-- The stale test of the cleanup sweep: not `session.isCallActive`, and
`session.lastActivity` truthy (a non-zero number), and `now - lastActivity`
greater than 30 minutes in milliseconds. -/
def isStale (now : Int) (s : SweepSession) : Bool :=
  !s.isCallActive && s.lastActivity != 0 &&
    decide (now - s.lastActivity > 30 * 60 * 1000)

/-- The sweep removes exactly the stale entries from `activeSessions` and
leaves every other entry untouched (for a removed entry it only disconnects
that session's Deepgram handle; it mutates no surviving session and no turn
state). -/
def sweep (now : Int) (sessions : List (String × SweepSession)) :
    List (String × SweepSession) :=
  sessions.filter (fun p => !(isStale now p.2))

/-- Claim C9: for sessions whose last-activity timestamp is positive (the
code always stores `Date.now()`), the sweep removes a session exactly when
its call is not active and more than 30 minutes have elapsed since its
last activity; in particular a session with an active call always survives,
and the sweep only filters the map — survivors are bitwise untouched. -/
theorem c9_sweep_removes_iff_idle_past_30min (now : Int)
    (sessions : List (String × SweepSession))
    (hpos : ∀ p ∈ sessions, 0 < p.2.lastActivity) :
    (∀ p ∈ sessions,
      (p ∈ sweep now sessions ↔
        ¬(p.2.isCallActive = false ∧ now - p.2.lastActivity > 30 * 60 * 1000))) ∧
    (∀ p ∈ sessions, p.2.isCallActive = true → p ∈ sweep now sessions) ∧
    List.Sublist (sweep now sessions) sessions := by
  have hchar : ∀ p ∈ sessions,
      (isStale now p.2 = true ↔
        (p.2.isCallActive = false ∧ now - p.2.lastActivity > 30 * 60 * 1000)) := by
    intro p hp
    have hne : p.2.lastActivity ≠ 0 := ne_of_gt (hpos p hp)
    simp [isStale, hne, Bool.and_eq_true, bne_iff_ne, decide_eq_true_iff,
      Bool.not_eq_true']
  refine ⟨?_, ?_, List.filter_sublist sessions⟩
  · intro p hp
    constructor
    · intro hmem hcond
      have hstale : isStale now p.2 = true := (hchar p hp).mpr hcond
      rcases List.mem_filter.mp hmem with ⟨-, hb⟩
      simp [hstale] at hb
    · intro hncond
      refine List.mem_filter.mpr ⟨hp, ?_⟩
      have hfalse : isStale now p.2 = false := by
        cases hb : isStale now p.2
        · rfl
        · exact absurd ((hchar p hp).mp hb) hncond
      simp [hfalse]
  · intro p hp hact
    refine List.mem_filter.mpr ⟨hp, ?_⟩
    have hfalse : isStale now p.2 = false := by
      cases hb : isStale now p.2
      · rfl
      · have hcall := ((hchar p hp).mp hb).1
        rw [hact] at hcall
        cases hcall
    simp [hfalse]

/-- Witness for C9: one session in an active call, one idle for over 30
minutes; only the idle one is removed. -/
theorem c9_witness :
    (∀ p ∈ [("a", SweepSession.mk true 5), ("b", SweepSession.mk false 5)],
      (p ∈ sweep 1000000000 [("a", SweepSession.mk true 5), ("b", SweepSession.mk false 5)] ↔
        ¬(p.2.isCallActive = false ∧ 1000000000 - p.2.lastActivity > 30 * 60 * 1000))) ∧
    (∀ p ∈ [("a", SweepSession.mk true 5), ("b", SweepSession.mk false 5)],
      p.2.isCallActive = true →
        p ∈ sweep 1000000000 [("a", SweepSession.mk true 5), ("b", SweepSession.mk false 5)]) ∧
    List.Sublist
      (sweep 1000000000 [("a", SweepSession.mk true 5), ("b", SweepSession.mk false 5)])
      [("a", SweepSession.mk true 5), ("b", SweepSession.mk false 5)] :=
  c9_sweep_removes_iff_idle_past_30min 1000000000
    [("a", SweepSession.mk true 5), ("b", SweepSession.mk false 5)] (by decide)

/-- A message in the Gemini chat-history format (role and one text part). -/
structure GeminiMsg where
  role : String
  text : String
deriving DecidableEq

/-- `streamGeminiResponse`, step 1: `conversationHistory.slice(0, -1)` mapped
to Gemini roles — `assistant` becomes `model`, every other role becomes
`user`. -/
def streamMappedHistory (hist : List Msg) : List GeminiMsg :=
  hist.dropLast.map (fun m =>
    { role := if m.role = "assistant" then "model" else "user", text := m.content })

/-- `streamGeminiResponse`, step 2: the while-loop shifting every leading
`model`-role entry off the mapped history; the result is the `history`
argument passed to `model.startChat`. -/
def streamGeminiHistoryArg (hist : List Msg) : List GeminiMsg :=
  (streamMappedHistory hist).dropWhile (fun m => m.role == "model")

/-- `generateGeminiResponse`, step 1: identical mapping code. -/
def generateMappedHistory (hist : List Msg) : List GeminiMsg :=
  hist.dropLast.map (fun m =>
    { role := if m.role = "assistant" then "model" else "user", text := m.content })

/-- `generateGeminiResponse`, step 2: identical shift loop. -/
def generateGeminiHistoryArg (hist : List Msg) : List GeminiMsg :=
  (generateMappedHistory hist).dropWhile (fun m => m.role == "model")

lemma dropWhile_model_head (l : List GeminiMsg)
    (h : ∀ m ∈ l, m.role = "user" ∨ m.role = "model") :
    l.dropWhile (fun m => m.role == "model") = [] ∨
    ∃ m rest, l.dropWhile (fun m => m.role == "model") = m :: rest ∧
      m.role = "user" := by
  induction l with
  | nil => exact Or.inl rfl
  | cons a t ih =>
      by_cases ha : a.role = "model"
      · rw [List.dropWhile_cons_of_pos (by simp [ha])]
        exact ih (fun m hm => h m (List.mem_cons_of_mem a hm))
      · rw [List.dropWhile_cons_of_neg (by simp [ha])]
        rcases h a (List.mem_cons_self a t) with hu | hm
        · exact Or.inr ⟨a, t, rfl, hu⟩
        · exact absurd hm ha

/-- Claim C10: in both the streaming and the non-streaming Gemini path, the
history passed to `startChat` is the role-mapped copy of all but the last
message with every leading `model`-role entry shifted off, and is therefore
either empty or begins with a `user`-role entry — even when the conversation
history starts with the assistant greeting. -/
theorem c10_gemini_history_starts_with_user (hist : List Msg) :
    streamGeminiHistoryArg hist = generateGeminiHistoryArg hist ∧
    (streamGeminiHistoryArg hist = [] ∨
      ∃ m rest, streamGeminiHistoryArg hist = m :: rest ∧ m.role = "user") := by
  refine ⟨rfl, ?_⟩
  refine dropWhile_model_head _ (fun m hm => ?_)
  rcases List.mem_map.mp hm with ⟨x, hx, hxe⟩
  by_cases hr : x.role = "assistant"
  · right; rw [← hxe]; simp [hr]
  · left; rw [← hxe]; simp [hr]
